import Mathlib

/-!
Verification development for the SolaraOS repository (`solara.py`, `test.py`),
an interactive front-end that invokes an external network scanner and parses /
colorizes its text output.

Python strings are embedded as `List Char`; Python's `str.split`, `str.strip`,
`str.replace`, substring tests (`in`), `str.startswith` and `str.lower` are
modelled below.  Python exceptions (`IndexError` from out-of-range list
indexing, `subprocess.TimeoutExpired`, the generic `except Exception`) are
modelled with `Option` / explicit outcome datatypes.
-/

set_option maxRecDepth 4000

/-- Python strings as lists of characters. -/
abbrev Line := List Char

/-- Shorthand turning a Lean string literal into its character list. -/
def str (s : String) : Line := s.data

/-- Characters treated as whitespace by Python's `str.split()` / `str.strip()`. -/
def isWS (c : Char) : Bool :=
  c == ' ' || c == '\t' || c == '\n' || c == '\r' || c == '\x0b' || c == '\x0c'

/-- Python `s.strip()`: remove leading and trailing whitespace. -/
def pyStrip (s : Line) : Line :=
  ((s.dropWhile isWS).reverse.dropWhile isWS).reverse

/-- Worker for `pySplitWS`: cut the input at every whitespace character,
keeping empty chunks (they are filtered out afterwards). -/
def splitWSGo : Line → Line → List Line
  | [], acc => [acc.reverse]
  | c :: rest, acc =>
    if isWS c then acc.reverse :: splitWSGo rest []
    else splitWSGo rest (c :: acc)

/-- Python `s.split()` with no argument: split on whitespace runs, dropping
empty chunks. -/
def pySplitWS (s : Line) : List Line :=
  (splitWSGo s []).filter (fun x => !x.isEmpty)

/-- Python substring test `sub in hay`. -/
def containsSub (hay sub : Line) : Bool :=
  match hay with
  | [] => sub.isEmpty
  | _ :: t => sub.isPrefixOf hay || containsSub t sub

/-- Worker for `splitOnSub`; the `fuel` argument bounds the recursion depth
(`fuel = hay.length` always suffices because the separator is nonempty). -/
def splitGo (sep : Line) : Nat → Line → Line → List Line
  | 0, s, acc => [acc.reverse ++ s]
  | _ + 1, [], acc => [acc.reverse]
  | fuel + 1, c :: rest, acc =>
    if sep.isPrefixOf (c :: rest) then
      acc.reverse :: splitGo sep fuel (List.drop sep.length (c :: rest)) []
    else
      splitGo sep fuel rest (c :: acc)

/-- Python `s.split(sep)` for a nonempty separator string `sep`. -/
def splitOnSub (sep s : Line) : List Line :=
  splitGo sep s.length s []

/-- Worker for `pyReplace`, fuelled like `splitGo`. -/
def replGo (old new : Line) : Nat → Line → Line
  | 0, s => s
  | _ + 1, [] => []
  | fuel + 1, c :: rest =>
    if old.isPrefixOf (c :: rest) then
      new ++ replGo old new fuel (List.drop old.length (c :: rest))
    else
      c :: replGo old new fuel rest

/-- Python `s.replace(old, new)` for a nonempty `old`: replace every
occurrence, scanning left to right. -/
def pyReplace (s old new : Line) : Line :=
  replGo old new s.length s

/-- Python `s.lower()` (ASCII case folding, which covers every string this
program compares after lowering). -/
def pyLower (s : Line) : Line := s.map Char.toLower

/-- Python `' '.join(parts)`. -/
def joinSpace (parts : List Line) : Line := List.intercalate [' '] parts

/-- Decimal digit character. -/
def digitChar (n : Nat) : Char := Char.ofNat (48 + n)

/-- Worker for `natLine` (fuelled). -/
def natDigits : Nat → Nat → Line
  | 0, _ => []
  | fuel + 1, n =>
    if n < 10 then [digitChar n]
    else natDigits fuel (n / 10) ++ [digitChar (n % 10)]

/-- Decimal rendering of a natural number, as produced by Python's
f-string interpolation of an `int`. -/
def natLine (n : Nat) : Line := natDigits (n + 1) n

/-! ## ColorManager (`test.py`, lines 21-101) -/

/-- State of `ColorManager`: the selected palette number (a Python `int`) and
the rotating rainbow index.  `rainbow_colors`, `color_map` and `reset` are
constants of the class and are modelled as top-level definitions. -/
structure ColorManager where
  current_color : Int
  rainbow_index : Nat
deriving DecidableEq

/-- `self.rainbow_colors` (`test.py` lines 26-33). -/
def rainbowColors : List Line :=
  [str "\x1b[91m", str "\x1b[93m", str "\x1b[92m",
   str "\x1b[96m", str "\x1b[94m", str "\x1b[95m"]

/-- Association-list lookup, modelling Python `dict` access where the last
binding for a key wins (entries are consed at the front on update). -/
def alookup {α β : Type} [DecidableEq α] : List (α × β) → α → Option β
  | [], _ => none
  | (k, v) :: rest, n => if n = k then some v else alookup rest n

/-- The entries of `self.color_map` (`test.py` lines 36-57). -/
def colorPairs : List (Int × Line) :=
  [(1, str "\x1b[97m"), (2, str "\x1b[92m"), (3, str "\x1b[91m"),
   (4, str "\x1b[94m"), (5, str "\x1b[93m"), (6, str "\x1b[95m"),
   (7, str "\x1b[96m"), (8, str "\x1b[90m"), (9, str "\x1b[37m"),
   (10, str "\x1b[31m"), (11, str "\x1b[32m"), (12, str "\x1b[34m"),
   (13, str "\x1b[35m"), (14, str "\x1b[36m"), (15, str "\x1b[33m"),
   (16, str "\x1b[1;91m"), (17, str "\x1b[1;92m"), (18, str "\x1b[1;94m"),
   (19, str "\x1b[1;95m"), (20, str "\x1b[1;96m")]

/-- `self.color_map` as a partial map; `colorMap n = none` models `n not in
self.color_map`. -/
def colorMap (n : Int) : Option Line := alookup colorPairs n

/-- `self.reset` (`test.py` line 59). -/
def resetCode : Line := str "\x1b[0m"

/-- The `ColorManager` constructed by `__init__` (`test.py` lines 24-34). -/
def initCM : ColorManager := { current_color := 1, rainbow_index := 0 }

/-- `ColorManager.set_color` (`test.py` lines 61-69).  The unavailable-color
branch prints a notice and falls back to color 1. -/
def setColor (cm : ColorManager) (n : Int) : ColorManager :=
  if n = 99 then { cm with current_color := 99 }
  else if (colorMap n).isSome then { cm with current_color := n }
  else { cm with current_color := 1 }

/-- `self.color_map.get(k, self.color_map[1])`: dictionary lookup with the
white code as default (`test.py` lines 79 and 84). -/
def forceCode (f : Int) : Line := (colorMap f).getD ((colorMap 1).getD [])

/-- `ColorManager.get_color_code` (`test.py` lines 71-79).  Returns the code
and the updated state; `none` models the `IndexError` that
`self.rainbow_colors[self.rainbow_index]` would raise on an out-of-range
index. -/
def getColorCode (cm : ColorManager) : Option (Line × ColorManager) :=
  if cm.current_color = 99 then
    match rainbowColors[cm.rainbow_index]? with
    | none => none
    | some color =>
      some (color, { cm with rainbow_index := (cm.rainbow_index + 1) % rainbowColors.length })
  else
    some (forceCode cm.current_color, cm)

/-- Python truthiness of the `force_color` argument (`if force_color:`):
`None` and `0` are falsy. -/
def truthy : Option Int → Bool
  | none => false
  | some f => f != 0

/-- `ColorManager.colorize` (`test.py` lines 81-88). -/
def colorize (cm : ColorManager) (text : Line) (force : Option Int) :
    Option (Line × ColorManager) :=
  if truthy force then
    some (forceCode (force.getD 0) ++ text ++ resetCode, cm)
  else
    match getColorCode cm with
    | none => none
    | some (code, cm') => some (code ++ text ++ resetCode, cm')

/-- States of the `ColorManager` reachable from construction by any sequence
of `set_color`, `get_color_code` and `colorize` calls. -/
inductive Reachable : ColorManager → Prop
  | init : Reachable initCM
  | set (cm : ColorManager) (n : Int) : Reachable cm → Reachable (setColor cm n)
  | get (cm : ColorManager) (c : Line) (cm' : ColorManager) :
      Reachable cm → getColorCode cm = some (c, cm') → Reachable cm'
  | col (cm : ColorManager) (t : Line) (f : Option Int) (o : Line) (cm' : ColorManager) :
      Reachable cm → colorize cm t f = some (o, cm') → Reachable cm'

/-- Every ANSI code the manager can emit: the palette values together with the
rainbow-mode codes. -/
def allAnsiCodes : List Line := colorPairs.map Prod.snd ++ rainbowColors

/-- Emit a sequence of `(text, force_color)` pairs through
`ColorManager.colorize`, collecting the colorized output lines and threading
the manager state; `none` propagates a raised exception. -/
def emits (cm : ColorManager) : List (Line × Option Int) → Option (List Line × ColorManager)
  | [] => some ([], cm)
  | (t, f) :: rest =>
    match colorize cm t f with
    | none => none
    | some (o, cm') =>
      match emits cm' rest with
      | none => none
      | some (os, cm'') => some (o :: os, cm'')

/-! ## Host-discovery parsing (`wifi_scan`, identical in `solara.py` lines
208-243 and `test.py` lines 281-316) -/

/-- A `current_device` dictionary: the five keys the loop can set, each absent
(`none`) until assigned. -/
structure Device where
  hostname : Option Line
  ip : Option Line
  mac : Option Line
  vendor : Option Line
  status : Option Line
deriving DecidableEq

/-- The empty dictionary `{}`. -/
def Device.empty : Device := ⟨none, none, none, none, none⟩

/-- Python truthiness of `current_device`: a dict is falsy iff it has no
keys, i.e. no field was ever assigned. -/
def Device.isEmpty (d : Device) : Bool :=
  d.hostname.isNone && d.ip.isNone && d.mac.isNone && d.vendor.isNone && d.status.isNone

/-- The header marker `'Nmap scan report for'`. -/
def strHdr : Line := str "Nmap scan report for"

/-- The split separator `'for '`. -/
def strFor : Line := str "for "

/-- The split separator `' ('`. -/
def strSpLpar : Line := str " ("

/-- `'('` as a one-character string. -/
def lpar : Line := ['(']

/-- `')'` as a one-character string. -/
def rpar : Line := [')']

/-- The `'MAC Address:'` prefix tested by `startswith`. -/
def strMacColon : Line := str "MAC Address:"

/-- The `'MAC Address: '` marker removed by `replace`. -/
def strMacSp : Line := str "MAC Address: "

/-- The `'Host is up'` marker. -/
def strHostUp : Line := str "Host is up"

/-- The literal `'Unknown'`. -/
def strUnknown : Line := str "Unknown"

/-- `line.startswith('Nmap scan report for')` on the stripped line. -/
def isHeaderLine (t : Line) : Bool := strHdr.isPrefixOf t

/-- One iteration of the device-parsing loop, on state
`(devices, current_device)`.  `none` models the `IndexError` raised by
`line.split('for ')[1]` (or `.split('(')[1]`) when the requested part does
not exist; the exception aborts the whole parse and is caught by the
enclosing `except`. -/
def wifiStep (st : List Device × Device) (raw : Line) : Option (List Device × Device) :=
  let line := pyStrip raw
  if isHeaderLine line then
    let devices := if st.2.isEmpty then st.1 else st.1 ++ [st.2]
    if containsSub line lpar && containsSub line rpar then
      match (splitOnSub strFor line)[1]? with
      | none => none
      | some afterFor =>
        match (splitOnSub lpar line)[1]? with
        | none => none
        | some afterPar =>
          some (devices,
            { hostname := some ((splitOnSub strSpLpar afterFor).headD [])
              ip := some ((splitOnSub rpar afterPar).headD [])
              mac := none, vendor := none, status := none })
    else
      match (splitOnSub strFor line)[1]? with
      | none => none
      | some rest =>
        some (devices,
          { hostname := some strUnknown, ip := some rest
            mac := none, vendor := none, status := none })
  else if strMacColon.isPrefixOf line then
    let macInfo := pyReplace line strMacSp []
    if containsSub macInfo lpar then
      match (splitOnSub lpar macInfo)[1]? with
      | none => none
      | some afterPar =>
        some (st.1,
          { st.2 with mac := some ((splitOnSub strSpLpar macInfo).headD [])
                      vendor := some (pyReplace afterPar rpar []) })
    else
      some (st.1, { st.2 with mac := some macInfo, vendor := some strUnknown })
  else if containsSub line strHostUp then
    some (st.1, { st.2 with status := some (str "UP") })
  else
    some st

/-- The whole `for line in lines:` loop. -/
def wifiFold : List Line → (List Device × Device) → Option (List Device × Device)
  | [], st => some st
  | l :: ls, st =>
    match wifiStep st l with
    | none => none
    | some st' => wifiFold ls st'

/-- The loop followed by the trailing `if current_device:
devices.append(current_device)`. -/
def wifiRun (lines : List Line) (st : List Device × Device) : Option (List Device) :=
  match wifiFold lines st with
  | none => none
  | some (devices, cur) => some (if cur.isEmpty then devices else devices ++ [cur])

/-- Parsing a host-discovery report from the initial state `([], {})`. -/
def wifiParse (lines : List Line) : Option (List Device) :=
  wifiRun lines ([], Device.empty)

/-- The stripped lines of a report that start a new device record. -/
def headersOf (lines : List Line) : List Line :=
  (lines.map pyStrip).filter isHeaderLine

/-- The IP the parser extracts from one (stripped) header line. -/
def headerIP (t : Line) : Line :=
  if containsSub t lpar && containsSub t rpar then
    (splitOnSub rpar ((splitOnSub lpar t)[1]?.getD [])).headD []
  else
    (splitOnSub strFor t)[1]?.getD []

/-- Every header line of the report contains the separator `'for '`
(otherwise `line.split('for ')[1]` raises `IndexError`). -/
def headersOk : List Line → Bool
  | [] => true
  | l :: ls => (!(isHeaderLine (pyStrip l)) || containsSub (pyStrip l) strFor) && headersOk ls

/-- A line that neither sets a MAC nor a status flag, so it cannot start an
accidental record before the first header. -/
def isInertLine (l : Line) : Bool :=
  !(strMacColon.isPrefixOf (pyStrip l)) && !(containsSub (pyStrip l) strHostUp)

/-- Every line before the first header line of the report is inert. -/
def leadingInert : List Line → Bool
  | [] => true
  | l :: ls => isHeaderLine (pyStrip l) || (isInertLine l && leadingInert ls)

/-! ## Website port-scan parsing -/

/-- The `'/tcp'` marker. -/
def strTcp : Line := str "/tcp"

/-- The `'open'` state token. -/
def strOpen : Line := str "open"

/-- A line holding an open TCP port: `'/tcp' in line and 'open' in line`. -/
def isOpenLine (l : Line) : Bool := containsSub l strTcp && containsSub l strOpen

/-- The tuple `(port, service, line)` appended by `test.py` lines 441-444:
`parts = line.split(); port = parts[0].split('/')[0];
service = parts[2] if len(parts) > 2 else 'unknown'`. -/
def openRecord (line : Line) : Line × Line × Line :=
  let parts := pySplitWS line
  ((splitOnSub ['/'] (parts.headD [])).headD [], parts.getD 2 (str "unknown"), line)

/-- One iteration of the `test.py` website parsing loop (lines 439-444) on the
accumulated `open_ports` list.  The `[]` case models the `IndexError` that
`parts[0]` would raise on a whitespace-only line (unreachable when the
`'/tcp'` guard holds). -/
def websiteStepT (acc : List (Line × Line × Line)) (line : Line) :
    Option (List (Line × Line × Line)) :=
  if isOpenLine line then
    match pySplitWS line with
    | [] => none
    | _ :: _ => some (acc ++ [openRecord line])
  else
    some acc

/-- The whole `test.py` website parsing loop. -/
def websiteFoldT : List Line → List (Line × Line × Line) → Option (List (Line × Line × Line))
  | [], acc => some acc
  | l :: ls, acc =>
    match websiteStepT acc l with
    | none => none
    | some acc' => websiteFoldT ls acc'

/-- Parsing a website scan report (`test.py`), from the empty accumulator. -/
def websiteParseT (lines : List Line) : Option (List (Line × Line × Line)) :=
  websiteFoldT lines []

/-- Field extraction of the `solara.py` website loop (lines 364-369):
`port = parts[0].split('/')[0]; service = parts[2] if len(parts) > 2 else
'unknown'; version = ' '.join(parts[3:]) if len(parts) > 3 else ''`.
The `[]` case models the `IndexError` of `parts[0]`. -/
def solaraFields (line : Line) : Option (Line × Line × Line) :=
  match pySplitWS line with
  | [] => none
  | p0 :: rest =>
    some ((splitOnSub ['/'] p0).headD [],
          (p0 :: rest).getD 2 (str "unknown"),
          if 3 < (p0 :: rest).length then joinSpace ((p0 :: rest).drop 3) else [])

/-- One iteration of the `solara.py` website loop (lines 364-372) on the state
`(open_ports, service_info)`; the dictionary update
`service_info[port] = {...}` is modelled by consing, with `alookup` finding
the newest binding first. -/
def solaraWebsiteStep (st : List Line × List (Line × Line × Line)) (line : Line) :
    Option (List Line × List (Line × Line × Line)) :=
  if isOpenLine line then
    match solaraFields line with
    | none => none
    | some (port, service, version) =>
      some (st.1 ++ [port], (port, service, version) :: st.2)
  else
    some st

/-- The whole `solara.py` website parsing loop. -/
def solaraWebsiteFold : List Line → (List Line × List (Line × Line × Line)) →
    Option (List Line × List (Line × Line × Line))
  | [], st => some st
  | l :: ls, st =>
    match solaraWebsiteStep st l with
    | none => none
    | some st' => solaraWebsiteFold ls st'

/-! ## Scan operations (`test.py`): invocation outcomes, output pipelines,
target validation, and the interactive loop's control flow -/

/-- Outcome of one `subprocess.run` invocation: normal completion with
captured stdout/stderr, `subprocess.TimeoutExpired`, or any other
exception. -/
inductive InvokeResult where
  | ok (stdout stderr : Line)
  | timeout
  | err (msg : Line)
deriving DecidableEq

/-- Which `try`/`except` branch of a scan function ran. -/
inductive ScanBranch where
  | completed
  | timedOut
  | failed
  | cancelled
deriving DecidableEq

/-- The branch selected by the `try`/`except subprocess.TimeoutExpired`/
`except Exception` structure shared by all scan functions. -/
def branchOf : InvokeResult → ScanBranch
  | .ok _ _ => .completed
  | .timeout => .timedOut
  | .err _ => .failed

/-- `'closed'`. -/
def strClosed : Line := str "closed"

/-- `'filtered'`. -/
def strFiltered : Line := str "filtered"

/-- `'Nmap scan report'` (the header test of `basic_scan`, without `for`). -/
def strNmapHdr : Line := str "Nmap scan report"

/-- The `force_color` chosen for a stdout line by `basic_scan`'s display
chain (`test.py` lines 181-189): green for `'open'` lines, red for
`'closed'`/`'filtered'` lines, blue for header lines, current color
otherwise. -/
def displayForce (l : Line) : Option Int :=
  if containsSub (pyLower l) strOpen then some 2
  else if containsSub (pyLower l) strClosed || containsSub (pyLower l) strFiltered then some 3
  else if containsSub l strNmapHdr then some 4
  else none

/-- The `force_color` chosen by `port_scan`'s display chain (`test.py` lines
215-221); unlike `basic_scan` it matches on the raw line and requires the
`'/tcp'` marker. -/
def portForce (l : Line) : Option Int :=
  if containsSub l strTcp && containsSub l strOpen then some 2
  else if containsSub l strTcp && (containsSub l strClosed || containsSub l strFiltered) then some 3
  else none

/-- `'='*60`. -/
def sepEq60 : Line := List.replicate 60 '='

/-- `'='*70`. -/
def sepEq70 : Line := List.replicate 70 '='

/-- Newline, the separator of `result.stdout.split('\n')`. -/
def nlSep : Line := ['\n']

/-- The `(text, force_color)` sequence emitted by `basic_scan` after target
validation (`test.py` lines 170-196). -/
def basicScanItems (target : Line) (res : InvokeResult) : List (Line × Option Int) :=
  (str "🔍 Running basic scan on " ++ target ++ str "...", some 2) ::
  match res with
  | .ok out errtxt =>
    [(sepEq60, some 4), (str "BASIC SCAN RESULTS", some 2), (sepEq60, some 4)]
    ++ (splitOnSub nlSep out).map (fun l => (l, displayForce l))
    ++ (if errtxt.isEmpty then [] else [(str "Errors:", some 3)])
  | .timeout => [(str "❌ Scan timed out after 5 minutes", some 3)]
  | .err e => [(str "❌ Error running scan: " ++ e, some 3)]

/-- The regular-expression check of `validate_target` (`test.py` lines
148-158): the target is private/localhost.  The `172.(1[6-9]|2[0-9]|3[01]).`
alternation is expanded to the sixteen second octets it accepts. -/
def matchesPrivate (t : Line) : Bool :=
  (str "127.").isPrefixOf t || (str "10.").isPrefixOf t ||
  ([str "16", str "17", str "18", str "19", str "20", str "21", str "22", str "23",
    str "24", str "25", str "26", str "27", str "28", str "29", str "30", str "31"].any
    fun d => (str "172." ++ d ++ str ".").isPrefixOf t) ||
  (str "192.168.").isPrefixOf t || t == str "localhost"

/-- `validate_target` (`test.py` lines 145-162): private targets pass
silently; otherwise the user's confirmation answer decides. -/
def validateTarget (target ans : Line) : Bool :=
  matchesPrivate target || pyLower ans == str "yes" || pyLower ans == str "y"

/-- Tag the output of an emission sequence with the `try`/`except` branch it
came from. -/
def tagEmits (tag : ScanBranch) (cm : ColorManager) (items : List (Line × Option Int)) :
    Option (ScanBranch × List Line × ColorManager) :=
  match emits cm items with
  | none => none
  | some (os, cm') => some (tag, os, cm')

/-- `basic_scan` (`test.py` lines 164-196), with the confirmation answer and
the invocation outcome passed as oracles.  Returns the branch taken, the
colorized output lines and the final color state. -/
def basicScan (cm : ColorManager) (target ans : Line) (res : InvokeResult) :
    Option (ScanBranch × List Line × ColorManager) :=
  if validateTarget target ans then
    tagEmits (branchOf res) cm (basicScanItems target res)
  else
    tagEmits .cancelled cm [(str "❌ Scan cancelled for safety reasons", some 3)]

/-- The `(text, force_color)` sequence emitted by `port_scan` after target
validation (`test.py` lines 204-226). -/
def portScanItems (target ports : Line) (res : InvokeResult) : List (Line × Option Int) :=
  (str "🔍 Scanning ports " ++ ports ++ str " on " ++ target ++ str "...", some 2) ::
  match res with
  | .ok out _ =>
    [(sepEq60, some 4), (str "PORT SCAN RESULTS (" ++ ports ++ str ")", some 2), (sepEq60, some 4)]
    ++ (splitOnSub nlSep out).map (fun l => (l, portForce l))
  | .timeout => [(str "❌ Scan timed out", some 3)]
  | .err e => [(str "❌ Error: " ++ e, some 3)]

/-- `port_scan` (`test.py` lines 198-226). -/
def portScan (cm : ColorManager) (target ports ans : Line) (res : InvokeResult) :
    Option (ScanBranch × List Line × ColorManager) :=
  if validateTarget target ans then
    tagEmits (branchOf res) cm (portScanItems target ports res)
  else
    tagEmits .cancelled cm [(str "❌ Scan cancelled for safety reasons", some 3)]

/-- The per-device display block of `wifi_scan` (`test.py` lines 322-328);
`i` is the 1-based device number.  The bare `print()` separating devices does
not go through `colorize` and is not collected. -/
def deviceItems (i : Nat) (d : Device) : List (Line × Option Int) :=
  [(str "🔹 Device " ++ natLine i ++ str ":", some 4),
   (str "   IP Address: " ++ d.ip.getD strUnknown, some 6),
   (str "   Hostname:   " ++ d.hostname.getD strUnknown, some 6)]
  ++ (if d.mac.isSome then
        [(str "   MAC:        " ++ d.mac.getD strUnknown, some 6),
         (str "   Vendor:     " ++ d.vendor.getD strUnknown, some 6)]
      else [])
  ++ [(str "   Status:     " ++ d.status.getD strUnknown, some 2)]

/-- The `(text, force_color)` sequence of `wifi_scan` (`test.py` lines
259-340), given the detected network info (or `None`) and the invocation
outcome.  A parse `IndexError` lands in the same generic `except` as an
invocation error, with Python's message for that exception. -/
def wifiScanItems (netinfo : Option (Line × Line)) (res : InvokeResult) :
    List (Line × Option Int) :=
  (str "🔍 Detecting local WiFi network...", some 2) ::
  match netinfo with
  | none =>
    [(str "❌ Could not detect local network. Try manual discovery with: discover 192.168.1.0/24",
      some 3)]
  | some (network, localip) =>
    [(str "📡 Local IP: " ++ localip, some 4),
     (str "🌐 Network: " ++ network, some 4),
     (str "🔍 Scanning for devices on your WiFi network...", some 2)]
    ++ match res with
    | .timeout => [(str "❌ WiFi scan timed out after 5 minutes", some 3)]
    | .err e => [(str "❌ Error during WiFi scan: " ++ e, some 3)]
    | .ok out _ =>
      [(sepEq70, some 4), (str "🏠 WIFI NETWORK DEVICES", some 2), (sepEq70, some 4)]
      ++ match wifiParse (splitOnSub nlSep out) with
      | none => [(str "❌ Error during WiFi scan: list index out of range", some 3)]
      | some devices =>
        if devices.isEmpty then
          [(str "No devices found or unable to parse results", some 3)]
        else
          (str "Found " ++ natLine devices.length ++ str " devices on the network:\n", some (2 : Int))
          :: (devices.enum.map (fun p => deviceItems (p.1 + 1) p.2)).flatten
          ++ [(str "🏠 Your device IP: " ++ localip, some 5),
              (str "📊 Total devices found: " ++ natLine devices.length, some 2)]

/-- `wifi_scan` (`test.py` lines 257-340): emit its message sequence through
the color manager. -/
def wifiScanRun (cm : ColorManager) (netinfo : Option (Line × Line)) (res : InvokeResult) :
    Option (List Line × ColorManager) :=
  emits cm (wifiScanItems netinfo res)

/-- The fixed port-description table of `website_scan` (`test.py` lines
454-471). -/
def portPairs : List (Line × Line) :=
  [(str "21", str "FTP - File Transfer Protocol"), (str "22", str "SSH - Secure Shell"),
   (str "23", str "Telnet"), (str "25", str "SMTP - Email (outgoing)"),
   (str "53", str "DNS - Domain Name Service"), (str "80", str "HTTP - Web Server"),
   (str "110", str "POP3 - Email (incoming)"), (str "143", str "IMAP - Email (incoming)"),
   (str "443", str "HTTPS - Secure Web Server"), (str "993", str "IMAPS - Secure IMAP"),
   (str "995", str "POP3S - Secure POP3"), (str "3389", str "RDP - Remote Desktop"),
   (str "5432", str "PostgreSQL Database"), (str "3306", str "MySQL Database"),
   (str "8080", str "HTTP Alternative/Proxy"), (str "8443", str "HTTPS Alternative")]

/-- Lookup into the port-description table. -/
def portDesc (p : Line) : Option Line := alookup portPairs p

/-- The display block for one parsed open-port record (`test.py` lines
449-475); the trailing bare `print()` is not collected. -/
def recItems (r : Line × Line × Line) : List (Line × Option Int) :=
  [(str "🔹 Port " ++ r.1 ++ str ":", some (4 : Int)),
   (str "   Service: " ++ r.2.1, some 6)]
  ++ match portDesc r.1 with
  | some d => [(str "   Info: " ++ d, some 5)]
  | none => []

/-- The open-port records `website_scan` builds from the invocation outcome
(`test.py` lines 436-444); only a completed invocation is parsed. -/
def websiteRecords (res : InvokeResult) : Option (List (Line × Line × Line)) :=
  match res with
  | .ok out _ => websiteParseT (splitOnSub nlSep out)
  | _ => some []

/-- The `(text, force_color)` sequence of the `try` block of `website_scan`
(`test.py` lines 428-482).  A parse `IndexError` lands in the generic
`except` clause after the three header lines were already printed. -/
def websiteScanItems (website : Line) (res : InvokeResult) : List (Line × Option Int) :=
  match res with
  | .timeout => [(str "❌ Scan timed out (30 minutes)", some 3)]
  | .err e => [(str "❌ Error during website scan: " ++ e, some 3)]
  | .ok out _ =>
    [(sepEq70, some 4), (str "🌐 WEBSITE SCAN RESULTS: " ++ website, some 2), (sepEq70, some 4)]
    ++ match websiteParseT (splitOnSub nlSep out) with
    | none => [(str "❌ Error during website scan: list index out of range", some 3)]
    | some recs =>
      if recs.isEmpty then
        [(str "❌ No open ports found in the scanned range", some 3)]
      else
        (str "🎯 Found " ++ natLine recs.length ++ str " open ports:\n", some (2 : Int))
        :: (recs.map recItems).flatten

/-- The `try` block of `website_scan`: emit its message sequence through the
color manager. -/
def websiteScanTry (cm : ColorManager) (website : Line) (res : InvokeResult) :
    Option (List Line × ColorManager) :=
  emits cm (websiteScanItems website res)

/-- Whether one iteration of `interactive_mode`'s loop leaves the loop. -/
inductive LoopCtl where
  | halt
  | next
deriving DecidableEq

/-- The control outcome of one iteration of the interactive loop (`test.py`
lines 541-592): the command line is stripped, split and lowered, and `break`
appears only in the `'exit'` branch — every other command, including a scan
whose body raised and was caught by `except Exception`, falls through to the
next iteration. -/
def replCtl (cmdline : Line) : LoopCtl :=
  if pyLower ((pySplitWS (pyStrip cmdline)).headD []) == str "exit" then .halt else .next

/-! ## Helper lemmas about the string primitives -/

theorem containsSub_nil (sub : Line) : containsSub [] sub = sub.isEmpty := rfl

theorem containsSub_cons (c : Char) (t sub : Line) :
    containsSub (c :: t) sub = (sub.isPrefixOf (c :: t) || containsSub t sub) := rfl

theorem splitGo_length_pos (sep : Line) :
    ∀ (fuel : Nat) (s acc : Line), 0 < (splitGo sep fuel s acc).length := by
  intro fuel
  induction fuel with
  | zero => intro s acc; simp [splitGo]
  | succ n ih =>
    intro s acc
    cases s with
    | nil => simp [splitGo]
    | cons c rest =>
      simp only [splitGo]
      split
      · simp
      · exact ih rest (c :: acc)

theorem two_le_splitGo (sep : Line) (hsep : sep ≠ []) :
    ∀ (fuel : Nat) (s acc : Line), s.length ≤ fuel → containsSub s sep = true →
      2 ≤ (splitGo sep fuel s acc).length := by
  intro fuel
  induction fuel with
  | zero =>
    intro s acc hlen hcon
    have hs : s = [] := List.length_eq_zero.mp (Nat.le_zero.mp hlen)
    subst hs
    simp [containsSub_nil, List.isEmpty_iff] at hcon
    exact absurd hcon hsep
  | succ n ih =>
    intro s acc hlen hcon
    cases s with
    | nil =>
      simp [containsSub_nil, List.isEmpty_iff] at hcon
      exact absurd hcon hsep
    | cons c rest =>
      rw [containsSub_cons] at hcon
      cases hp : sep.isPrefixOf (c :: rest) with
      | true =>
        have := splitGo_length_pos sep n (List.drop sep.length (c :: rest)) []
        simp only [splitGo, hp, if_pos, List.length_cons]
        omega
      | false =>
        rw [hp] at hcon
        simp only [Bool.false_or] at hcon
        simp only [splitGo, hp, Bool.false_eq_true, if_neg, if_false]
        exact ih rest (c :: acc) (by simp at hlen; omega) hcon

theorem exists_get1_of_containsSub (sep s : Line) (hsep : sep ≠ [])
    (h : containsSub s sep = true) : ∃ v, (splitOnSub sep s)[1]? = some v := by
  have h2 : 2 ≤ (splitOnSub sep s).length :=
    two_le_splitGo sep hsep s.length s [] (Nat.le_refl _) h
  cases hl : splitOnSub sep s with
  | nil => rw [hl] at h2; simp at h2
  | cons a t =>
    cases t with
    | nil => rw [hl] at h2; simp at h2
    | cons b t2 => exact ⟨b, by simp⟩

theorem mem_of_isPrefixOf {l₁ l₂ : Line} {a : Char} (h : l₁.isPrefixOf l₂ = true)
    (ha : a ∈ l₁) : a ∈ l₂ :=
  (List.isPrefixOf_iff_prefix.mp h).subset ha

theorem mem_of_containsSub {s sub : Line} {a : Char} (h : containsSub s sub = true)
    (ha : a ∈ sub) : a ∈ s := by
  induction s with
  | nil =>
    rw [containsSub_nil, List.isEmpty_iff] at h
    subst h
    cases ha
  | cons c t ih =>
    rw [containsSub_cons] at h
    cases hp : sub.isPrefixOf (c :: t) with
    | true => exact mem_of_isPrefixOf hp ha
    | false =>
      rw [hp] at h
      simp only [Bool.false_or] at h
      exact List.mem_cons_of_mem c (ih h)

theorem filter_nonempty_cons_keep {x : Line} {l : List Line} (hx : x ≠ []) :
    (x :: l).filter (fun y => !y.isEmpty) = x :: l.filter (fun y => !y.isEmpty) := by
  simp [List.filter_cons, hx]

theorem filter_nonempty_cons_drop {l : List Line} :
    (([] : Line) :: l).filter (fun y => !y.isEmpty) = l.filter (fun y => !y.isEmpty) := by
  simp [List.filter_cons]

theorem splitWSGo_filter_ne_nil_of_acc (s : Line) :
    ∀ acc : Line, acc ≠ [] → (splitWSGo s acc).filter (fun x => !x.isEmpty) ≠ [] := by
  induction s with
  | nil =>
    intro acc hacc
    have hrev : acc.reverse ≠ [] := by simpa using hacc
    simp only [splitWSGo]
    rw [filter_nonempty_cons_keep hrev]
    simp
  | cons c rest ih =>
    intro acc hacc
    simp only [splitWSGo]
    split
    · have hrev : acc.reverse ≠ [] := by simpa using hacc
      rw [filter_nonempty_cons_keep hrev]
      simp
    · exact ih (c :: acc) (by simp)

theorem pySplitWS_ne_nil (s : Line) :
    (∃ c ∈ s, isWS c = false) → pySplitWS s ≠ [] := by
  unfold pySplitWS
  induction s with
  | nil => rintro ⟨c, hc, -⟩; cases hc
  | cons a rest ih =>
    rintro ⟨c, hc, hcw⟩
    simp only [splitWSGo]
    split
    · rename_i hws
      have hc' : c ∈ rest := by
        rcases List.mem_cons.mp hc with rfl | h'
        · rw [hws] at hcw; cases hcw
        · exact h'
      simp only [List.reverse_nil]
      rw [filter_nonempty_cons_drop]
      exact ih ⟨c, hc', hcw⟩
    · exact splitWSGo_filter_ne_nil_of_acc rest [a] (by simp)

theorem splitGo_singleton_head (ch : Char) :
    ∀ (fuel : Nat) (s acc : Line), s.length ≤ fuel →
      ∃ t, splitGo [ch] fuel s acc = (acc.reverse ++ s.takeWhile (fun c => c != ch)) :: t := by
  intro fuel
  induction fuel with
  | zero =>
    intro s acc hlen
    have hs : s = [] := List.length_eq_zero.mp (Nat.le_zero.mp hlen)
    subst hs
    exact ⟨[], by simp [splitGo]⟩
  | succ n ih =>
    intro s acc hlen
    cases s with
    | nil => exact ⟨[], by simp [splitGo]⟩
    | cons c rest =>
      by_cases hc : c = ch
      · subst hc
        have hp : ([c] : Line).isPrefixOf (c :: rest) = true := by
          simp [List.isPrefixOf]
        refine ⟨splitGo [c] n (List.drop 1 (c :: rest)) [], ?_⟩
        simp [splitGo, hp, List.takeWhile_cons]
      · have hp : ([ch] : Line).isPrefixOf (c :: rest) = false := by
          simp [List.isPrefixOf]
          exact fun h => hc h.symm
        obtain ⟨t, ht⟩ := ih rest (c :: acc) (by simp at hlen; omega)
        refine ⟨t, ?_⟩
        simp only [splitGo, hp, Bool.false_eq_true, if_false]
        rw [ht]
        have hcc : (c != ch) = true := by simpa using hc
        simp [List.takeWhile_cons, hcc, List.append_assoc]

theorem splitOnSub_singleton_head (ch : Char) (s : Line) :
    ∃ t, splitOnSub [ch] s = (s.takeWhile (fun c => c != ch)) :: t := by
  obtain ⟨t, ht⟩ := splitGo_singleton_head ch s.length s [] (Nat.le_refl _)
  exact ⟨t, by simpa [splitOnSub] using ht⟩

theorem splitOnSub_singleton_headD (ch : Char) (s : Line) :
    (splitOnSub [ch] s).headD [] = s.takeWhile (fun c => c != ch) := by
  obtain ⟨t, ht⟩ := splitOnSub_singleton_head ch s
  rw [ht]
  rfl

theorem not_mem_replGo {ch : Char} {old new : Line} (hnew : ch ∉ new) :
    ∀ (fuel : Nat) (s : Line), ch ∉ s → ch ∉ replGo old new fuel s := by
  intro fuel
  induction fuel with
  | zero => intro s hs; simpa [replGo] using hs
  | succ n ih =>
    intro s hs
    cases s with
    | nil => simp [replGo]
    | cons c rest =>
      simp only [replGo]
      split
      · intro hmem
        rcases List.mem_append.mp hmem with h | h
        · exact hnew h
        · exact ih _ (fun hx => hs (List.drop_subset _ _ hx)) h
      · intro hmem
        rcases List.mem_cons.mp hmem with rfl | h
        · exact hs (List.mem_cons_self _ _)
        · exact ih rest (fun hx => hs (List.mem_cons_of_mem _ hx)) h

theorem not_mem_pyReplace {ch : Char} {s old : Line} (h : ch ∉ s) :
    ch ∉ pyReplace s old [] :=
  not_mem_replGo (by simp) s.length s h

theorem containsSub_singleton_of_mem {s : Line} {ch : Char} (h : ch ∈ s) :
    containsSub s [ch] = true := by
  induction s with
  | nil => cases h
  | cons c t ih =>
    rw [containsSub_cons]
    rcases List.mem_cons.mp h with rfl | h'
    · have : ([ch] : Line).isPrefixOf (ch :: t) = true := by simp [List.isPrefixOf]
      rw [this]
      rfl
    · rw [ih h']
      simp

theorem not_containsSub_singleton {s : Line} {ch : Char} (h : ch ∉ s) :
    containsSub s [ch] = false := by
  cases hc : containsSub s [ch] with
  | false => rfl
  | true => exact absurd (mem_of_containsSub hc (List.mem_singleton.mpr rfl)) h

/-! ## Helper lemmas about the color manager and the output pipeline -/

theorem colorize_force (cm : ColorManager) (t : Line) (f : Int) (hf : f ≠ 0) :
    colorize cm t (some f) = some (forceCode f ++ t ++ resetCode, cm) := by
  have : truthy (some f) = true := by simpa [truthy] using hf
  simp [colorize, this]

theorem getColorCode_current {cm : ColorManager} {c : Line} {cm' : ColorManager}
    (h : getColorCode cm = some (c, cm')) : cm'.current_color = cm.current_color := by
  unfold getColorCode at h
  split at h
  · cases hr : rainbowColors[cm.rainbow_index]? with
    | none => rw [hr] at h; simp at h
    | some color =>
      rw [hr] at h
      simp only [Option.some.injEq, Prod.mk.injEq] at h
      obtain ⟨-, h2⟩ := h
      rw [← h2]
  · simp only [Option.some.injEq, Prod.mk.injEq] at h
    obtain ⟨-, h2⟩ := h
    rw [← h2]

theorem colorize_current {cm : ColorManager} {t : Line} {f : Option Int} {o : Line}
    {cm' : ColorManager} (h : colorize cm t f = some (o, cm')) :
    cm'.current_color = cm.current_color := by
  unfold colorize at h
  split at h
  · simp only [Option.some.injEq, Prod.mk.injEq] at h
    obtain ⟨-, h2⟩ := h
    rw [← h2]
  · cases hg : getColorCode cm with
    | none => rw [hg] at h; simp at h
    | some p =>
      obtain ⟨c1, cm1⟩ := p
      rw [hg] at h
      simp only [Option.some.injEq, Prod.mk.injEq] at h
      obtain ⟨-, h2⟩ := h
      rw [← h2]
      exact getColorCode_current hg

theorem emits_current :
    ∀ (items : List (Line × Option Int)) (cm : ColorManager) (os : List Line)
      (cm' : ColorManager), emits cm items = some (os, cm') →
      cm'.current_color = cm.current_color := by
  intro items
  induction items with
  | nil =>
    intro cm os cm' h
    simp only [emits, Option.some.injEq, Prod.mk.injEq] at h
    obtain ⟨-, h2⟩ := h
    rw [← h2]
  | cons x rest ih =>
    intro cm os cm' h
    simp only [emits] at h
    cases hc : colorize cm x.1 x.2 with
    | none => rw [hc] at h; simp at h
    | some p =>
      obtain ⟨o1, cm1⟩ := p
      rw [hc] at h
      dsimp only at h
      cases he : emits cm1 rest with
      | none => rw [he] at h; simp at h
      | some q =>
        obtain ⟨os1, cm2⟩ := q
        rw [he] at h
        simp only [Option.some.injEq, Prod.mk.injEq] at h
        obtain ⟨-, h2⟩ := h
        rw [← h2]
        rw [ih cm1 os1 cm2 he]
        exact colorize_current hc

theorem emits_forced :
    ∀ (items : List (Line × Option Int)) (cm : ColorManager),
      (∀ x ∈ items, truthy x.2 = true) → ∃ os, emits cm items = some (os, cm) := by
  intro items
  induction items with
  | nil => intro cm _; exact ⟨[], rfl⟩
  | cons x rest ih =>
    intro cm hall
    have hx : truthy x.2 = true := hall x (List.mem_cons_self _ _)
    obtain ⟨os, hos⟩ := ih cm (fun y hy => hall y (List.mem_cons_of_mem _ hy))
    refine ⟨(forceCode (x.2.getD 0) ++ x.1 ++ resetCode) :: os, ?_⟩
    simp [emits, colorize, hx, hos]

theorem deviceItems_forced (i : Nat) (d : Device) :
    ∀ x ∈ deviceItems i d, truthy x.2 = true := by
  intro x hx
  unfold deviceItems at hx
  rcases List.mem_append.mp hx with h | h
  · rcases List.mem_append.mp h with h | h
    · simp only [List.mem_cons, List.not_mem_nil, or_false] at h
      rcases h with rfl | rfl | rfl <;> rfl
    · by_cases hm : d.mac.isSome
      · rw [if_pos hm] at h
        simp only [List.mem_cons, List.not_mem_nil, or_false] at h
        rcases h with rfl | rfl <;> rfl
      · rw [if_neg hm] at h
        cases h
  · simp only [List.mem_cons, List.not_mem_nil, or_false] at h
    subst h
    rfl

theorem wifiScanItems_forced (ni : Option (Line × Line)) (res : InvokeResult) :
    ∀ x ∈ wifiScanItems ni res, truthy x.2 = true := by
  intro x hx
  unfold wifiScanItems at hx
  rcases List.mem_cons.mp hx with rfl | hx
  · rfl
  · cases ni with
    | none =>
      simp only [List.mem_cons, List.not_mem_nil, or_false] at hx
      subst hx
      rfl
    | some p =>
      obtain ⟨network, localip⟩ := p
      dsimp only at hx
      rcases List.mem_append.mp hx with h | h
      · simp only [List.mem_cons, List.not_mem_nil, or_false] at h
        rcases h with rfl | rfl | rfl <;> rfl
      · cases res with
        | timeout =>
          simp only [List.mem_cons, List.not_mem_nil, or_false] at h
          subst h
          rfl
        | err e =>
          simp only [List.mem_cons, List.not_mem_nil, or_false] at h
          subst h
          rfl
        | ok out errtxt =>
          dsimp only at h
          rcases List.mem_append.mp h with h | h
          · simp only [List.mem_cons, List.not_mem_nil, or_false] at h
            rcases h with rfl | rfl | rfl <;> rfl
          · cases hp : wifiParse (splitOnSub nlSep out) with
            | none =>
              rw [hp] at h
              simp only [List.mem_cons, List.not_mem_nil, or_false] at h
              subst h
              rfl
            | some devices =>
              rw [hp] at h
              dsimp only at h
              by_cases hd : devices.isEmpty
              · rw [if_pos hd] at h
                simp only [List.mem_cons, List.not_mem_nil, or_false] at h
                subst h
                rfl
              · rw [if_neg hd] at h
                rcases List.mem_cons.mp h with rfl | h
                · rfl
                · rcases List.mem_append.mp h with h | h
                  · obtain ⟨l, hl, hxl⟩ := List.mem_flatten.mp h
                    obtain ⟨pr, _, rfl⟩ := List.mem_map.mp hl
                    exact deviceItems_forced _ _ x hxl
                  · simp only [List.mem_cons, List.not_mem_nil, or_false] at h
                    rcases h with rfl | rfl <;> rfl

theorem recItems_forced (r : Line × Line × Line) :
    ∀ x ∈ recItems r, truthy x.2 = true := by
  intro x hx
  unfold recItems at hx
  rcases List.mem_append.mp hx with h | h
  · simp only [List.mem_cons, List.not_mem_nil, or_false] at h
    rcases h with rfl | rfl <;> rfl
  · cases hd : portDesc r.1 with
    | none => rw [hd] at h; cases h
    | some d =>
      rw [hd] at h
      simp only [List.mem_cons, List.not_mem_nil, or_false] at h
      subst h
      rfl

theorem websiteScanItems_forced (website : Line) (res : InvokeResult) :
    ∀ x ∈ websiteScanItems website res, truthy x.2 = true := by
  intro x hx
  unfold websiteScanItems at hx
  cases res with
  | timeout =>
    simp only [List.mem_cons, List.not_mem_nil, or_false] at hx
    subst hx
    rfl
  | err e =>
    simp only [List.mem_cons, List.not_mem_nil, or_false] at hx
    subst hx
    rfl
  | ok out errtxt =>
    dsimp only at hx
    rcases List.mem_append.mp hx with h | h
    · simp only [List.mem_cons, List.not_mem_nil, or_false] at h
      rcases h with rfl | rfl | rfl <;> rfl
    · cases hp : websiteParseT (splitOnSub nlSep out) with
      | none =>
        rw [hp] at h
        simp only [List.mem_cons, List.not_mem_nil, or_false] at h
        subst h
        rfl
      | some recs =>
        rw [hp] at h
        dsimp only at h
        by_cases hr : recs.isEmpty
        · rw [if_pos hr] at h
          simp only [List.mem_cons, List.not_mem_nil, or_false] at h
          subst h
          rfl
        · rw [if_neg hr] at h
          rcases List.mem_cons.mp h with rfl | h
          · rfl
          · obtain ⟨l, hl, hxl⟩ := List.mem_flatten.mp h
            obtain ⟨r, _, rfl⟩ := List.mem_map.mp hl
            exact recItems_forced r x hxl

theorem wifiScanRun_state (cm : ColorManager) (ni : Option (Line × Line))
    (res : InvokeResult) : ∃ os, wifiScanRun cm ni res = some (os, cm) :=
  emits_forced _ cm (wifiScanItems_forced ni res)

theorem websiteScanTry_state (cm : ColorManager) (website : Line)
    (res : InvokeResult) : ∃ os, websiteScanTry cm website res = some (os, cm) :=
  emits_forced _ cm (websiteScanItems_forced website res)

theorem tagEmits_current {tag : ScanBranch} {cm : ColorManager}
    {items : List (Line × Option Int)} {b : ScanBranch} {os : List Line}
    {cm' : ColorManager} (h : tagEmits tag cm items = some (b, os, cm')) :
    cm'.current_color = cm.current_color := by
  unfold tagEmits at h
  cases he : emits cm items with
  | none => rw [he] at h; simp at h
  | some p =>
    obtain ⟨os1, cm1⟩ := p
    rw [he] at h
    simp only [Option.some.injEq, Prod.mk.injEq] at h
    obtain ⟨-, -, h3⟩ := h
    rw [← h3]
    exact emits_current _ cm os1 cm1 he

theorem basicScan_current {cm : ColorManager} {target ans : Line} {res : InvokeResult}
    {b : ScanBranch} {os : List Line} {cm' : ColorManager}
    (h : basicScan cm target ans res = some (b, os, cm')) :
    cm'.current_color = cm.current_color := by
  unfold basicScan at h
  split at h <;> exact tagEmits_current h

theorem portScan_current {cm : ColorManager} {target ports ans : Line} {res : InvokeResult}
    {b : ScanBranch} {os : List Line} {cm' : ColorManager}
    (h : portScan cm target ports ans res = some (b, os, cm')) :
    cm'.current_color = cm.current_color := by
  unfold portScan at h
  split at h <;> exact tagEmits_current h

/-! ## The ColorManager invariant -/

/-- The invariant of the claim on reachable color states: the selection is
rainbow or a palette key, and the rainbow index stays in range. -/
def CMInv (cm : ColorManager) : Prop :=
  (cm.current_color = 99 ∨ (colorMap cm.current_color).isSome = true) ∧
    cm.rainbow_index < 6

theorem setColor_inv (cm : ColorManager) (n : Int) (h : CMInv cm) :
    CMInv (setColor cm n) := by
  unfold setColor
  split
  · exact ⟨Or.inl rfl, h.2⟩
  · split
    · rename_i hk
      exact ⟨Or.inr hk, h.2⟩
    · exact ⟨Or.inr (show (colorMap 1).isSome = true by decide), h.2⟩

theorem getColorCode_inv {cm : ColorManager} {c : Line} {cm' : ColorManager}
    (hg : getColorCode cm = some (c, cm')) (h : CMInv cm) : CMInv cm' := by
  unfold getColorCode at hg
  split at hg
  · rename_i h99
    cases hrb : rainbowColors[cm.rainbow_index]? with
    | none => rw [hrb] at hg; simp at hg
    | some color =>
      rw [hrb] at hg
      simp only [Option.some.injEq, Prod.mk.injEq] at hg
      obtain ⟨-, h2⟩ := hg
      rw [← h2]
      exact ⟨Or.inl h99, Nat.mod_lt _ (by decide)⟩
  · simp only [Option.some.injEq, Prod.mk.injEq] at hg
    obtain ⟨-, h2⟩ := hg
    rw [← h2]
    exact h

theorem getColorCode_total {cm : ColorManager} (h : CMInv cm) :
    ∃ c cm', getColorCode cm = some (c, cm') := by
  unfold getColorCode
  split
  · have hlt : cm.rainbow_index < rainbowColors.length := h.2
    rw [List.getElem?_eq_getElem hlt]
    exact ⟨_, _, rfl⟩
  · exact ⟨_, _, rfl⟩

theorem colorize_inv {cm : ColorManager} {t : Line} {f : Option Int} {o : Line}
    {cm' : ColorManager} (hc : colorize cm t f = some (o, cm')) (h : CMInv cm) :
    CMInv cm' := by
  unfold colorize at hc
  split at hc
  · simp only [Option.some.injEq, Prod.mk.injEq] at hc
    obtain ⟨-, h2⟩ := hc
    rw [← h2]
    exact h
  · cases hg : getColorCode cm with
    | none => rw [hg] at hc; simp at hc
    | some p =>
      obtain ⟨c1, cm1⟩ := p
      rw [hg] at hc
      simp only [Option.some.injEq, Prod.mk.injEq] at hc
      obtain ⟨-, h2⟩ := hc
      rw [← h2]
      exact getColorCode_inv hg h

theorem reachable_inv {cm : ColorManager} (h : Reachable cm) : CMInv cm := by
  induction h with
  | init => exact ⟨Or.inr (by decide), by decide⟩
  | set cm n _ ih => exact setColor_inv cm n ih
  | get cm c cm' _ hg ih => exact getColorCode_inv hg ih
  | col cm t f o cm' _ hc ih => exact colorize_inv hc ih

theorem alookup_mem {α β : Type} [DecidableEq α] :
    ∀ (ps : List (α × β)) (n : α) (v : β), alookup ps n = some v → v ∈ ps.map Prod.snd := by
  intro ps
  induction ps with
  | nil => intro n v h; cases h
  | cons p rest ih =>
    intro n v h
    obtain ⟨k, w⟩ := p
    unfold alookup at h
    split at h
    · simp only [Option.some.injEq] at h
      subst h
      exact List.mem_cons_self _ _
    · exact List.mem_cons_of_mem _ (ih n v h)

/-- The palette code returned for any forced color is one of the fixed ANSI
codes. -/
theorem forceCode_mem (f : Int) : forceCode f ∈ allAnsiCodes := by
  unfold forceCode allAnsiCodes
  cases hf : colorMap f with
  | none => exact List.mem_append_left _ (by decide)
  | some code =>
    simp only [Option.getD_some]
    exact List.mem_append_left _ (alookup_mem colorPairs f code hf)

/-! ## Correctness lemmas for the device-parsing loop -/

theorem bool_not_true {b : Bool} (h : b = false) : ¬(b = true) := by simp [h]

theorem Device.isEmpty_false_of_ip {d : Device} {v : Line} (h : d.ip = some v) :
    d.isEmpty = false := by
  unfold Device.isEmpty
  rw [h]
  simp

theorem wifiRun_nil (st : List Device × Device) :
    wifiRun [] st = some (if st.2.isEmpty then st.1 else st.1 ++ [st.2]) := rfl

theorem wifiRun_cons (l : Line) (ls : List Line) (st : List Device × Device) :
    wifiRun (l :: ls) st =
      match wifiStep st l with
      | none => none
      | some st' => wifiRun ls st' := by
  cases hs : wifiStep st l <;> simp [wifiRun, wifiFold, hs]

theorem wifiStep_header_paren {st : List Device × Device} {l afterFor afterPar : Line}
    (hh : isHeaderLine (pyStrip l) = true)
    (hp : (containsSub (pyStrip l) lpar && containsSub (pyStrip l) rpar) = true)
    (h1 : (splitOnSub strFor (pyStrip l))[1]? = some afterFor)
    (h2 : (splitOnSub lpar (pyStrip l))[1]? = some afterPar) :
    wifiStep st l = some ((if st.2.isEmpty then st.1 else st.1 ++ [st.2]),
      { hostname := some ((splitOnSub strSpLpar afterFor).headD [])
        ip := some ((splitOnSub rpar afterPar).headD [])
        mac := none, vendor := none, status := none }) := by
  simp only [wifiStep]
  rw [if_pos hh, if_pos hp, h1]
  dsimp only
  rw [h2]

theorem wifiStep_header_bare {st : List Device × Device} {l rest : Line}
    (hh : isHeaderLine (pyStrip l) = true)
    (hp : (containsSub (pyStrip l) lpar && containsSub (pyStrip l) rpar) = false)
    (h1 : (splitOnSub strFor (pyStrip l))[1]? = some rest) :
    wifiStep st l = some ((if st.2.isEmpty then st.1 else st.1 ++ [st.2]),
      { hostname := some strUnknown, ip := some rest
        mac := none, vendor := none, status := none }) := by
  simp only [wifiStep]
  rw [if_pos hh, if_neg (bool_not_true hp), h1]

theorem wifiStep_nonheader (devices : List Device) (cur : Device) {l : Line}
    (hh : isHeaderLine (pyStrip l) = false) :
    ∃ cur', wifiStep (devices, cur) l = some (devices, cur') ∧ cur'.ip = cur.ip := by
  simp only [wifiStep]
  rw [if_neg (bool_not_true hh)]
  by_cases hm : strMacColon.isPrefixOf (pyStrip l) = true
  · rw [if_pos hm]
    by_cases hpl : containsSub (pyReplace (pyStrip l) strMacSp []) lpar = true
    · obtain ⟨ap, hap⟩ := exists_get1_of_containsSub lpar _ (by decide) hpl
      rw [if_pos hpl, hap]
      exact ⟨_, rfl, rfl⟩
    · rw [if_neg hpl]
      exact ⟨_, rfl, rfl⟩
  · rw [if_neg hm]
    by_cases hu : containsSub (pyStrip l) strHostUp = true
    · rw [if_pos hu]
      exact ⟨_, rfl, rfl⟩
    · rw [if_neg hu]
      exact ⟨_, rfl, rfl⟩

theorem wifiStep_inert {st : List Device × Device} {l : Line}
    (hh : isHeaderLine (pyStrip l) = false)
    (hm : strMacColon.isPrefixOf (pyStrip l) = false)
    (hu : containsSub (pyStrip l) strHostUp = false) :
    wifiStep st l = some st := by
  simp only [wifiStep]
  rw [if_neg (bool_not_true hh), if_neg (bool_not_true hm), if_neg (bool_not_true hu)]

theorem headerIP_paren {t afterPar : Line}
    (hp : (containsSub t lpar && containsSub t rpar) = true)
    (h2 : (splitOnSub lpar t)[1]? = some afterPar) :
    headerIP t = (splitOnSub rpar afterPar).headD [] := by
  unfold headerIP
  rw [if_pos hp, h2]
  rfl

theorem headerIP_bare {t rest : Line}
    (hp : (containsSub t lpar && containsSub t rpar) = false)
    (h1 : (splitOnSub strFor t)[1]? = some rest) :
    headerIP t = rest := by
  unfold headerIP
  rw [if_neg (bool_not_true hp), h1]
  rfl

theorem headersOf_nil : headersOf [] = [] := rfl

theorem headersOf_cons_header {l : Line} {ls : List Line}
    (hh : isHeaderLine (pyStrip l) = true) :
    headersOf (l :: ls) = pyStrip l :: headersOf ls := by
  simp [headersOf, List.filter_cons, hh]

theorem headersOf_cons_other {l : Line} {ls : List Line}
    (hh : isHeaderLine (pyStrip l) = false) :
    headersOf (l :: ls) = headersOf ls := by
  simp [headersOf, List.filter_cons, hh]

theorem headersOk_cons (l : Line) (ls : List Line) :
    headersOk (l :: ls) =
      ((!(isHeaderLine (pyStrip l)) || containsSub (pyStrip l) strFor) && headersOk ls) := rfl

theorem leadingInert_cons (l : Line) (ls : List Line) :
    leadingInert (l :: ls) =
      (isHeaderLine (pyStrip l) || (isInertLine l && leadingInert ls)) := rfl

theorem wifiRun_after_header :
    ∀ (lines : List Line) (devices : List Device) (cur : Device) (v : Line),
      cur.ip = some v → headersOk lines = true →
      ∃ ds, wifiRun lines (devices, cur) = some ds ∧
        ds.map Device.ip =
          devices.map Device.ip ++
            some v :: (headersOf lines).map (fun h => some (headerIP h)) := by
  intro lines
  induction lines with
  | nil =>
    intro devices cur v hip _
    refine ⟨devices ++ [cur], ?_, ?_⟩
    · rw [wifiRun_nil]
      simp [Device.isEmpty_false_of_ip hip]
    · simp [headersOf_nil, List.map_append, hip]
  | cons l ls ih =>
    intro devices cur v hip hok
    rw [headersOk_cons] at hok
    obtain ⟨hokl, hok'⟩ := Bool.and_eq_true_iff.mp hok
    have hempty : cur.isEmpty = false := Device.isEmpty_false_of_ip hip
    cases hh : isHeaderLine (pyStrip l) with
    | false =>
      obtain ⟨cur', hstep, hipres⟩ := wifiStep_nonheader devices cur hh
      rw [wifiRun_cons, hstep]
      dsimp only
      obtain ⟨ds, hds, hmap⟩ := ih devices cur' v (by rw [hipres, hip]) hok'
      refine ⟨ds, hds, ?_⟩
      rw [hmap, headersOf_cons_other hh]
    | true =>
      have hfor : containsSub (pyStrip l) strFor = true := by
        rw [hh] at hokl
        simpa using hokl
      obtain ⟨afterFor, h1⟩ := exists_get1_of_containsSub strFor (pyStrip l) (by decide) hfor
      cases hp : (containsSub (pyStrip l) lpar && containsSub (pyStrip l) rpar) with
      | true =>
        obtain ⟨afterPar, h2⟩ := exists_get1_of_containsSub lpar (pyStrip l) (by decide)
          (Bool.and_eq_true_iff.mp hp).1
        rw [wifiRun_cons, wifiStep_header_paren hh hp h1 h2]
        simp only [hempty, Bool.false_eq_true, if_false]
        obtain ⟨ds, hds, hmap⟩ := ih (devices ++ [cur])
          { hostname := some ((splitOnSub strSpLpar afterFor).headD [])
            ip := some ((splitOnSub rpar afterPar).headD [])
            mac := none, vendor := none, status := none }
          ((splitOnSub rpar afterPar).headD []) rfl hok'
        refine ⟨ds, hds, ?_⟩
        rw [hmap, headersOf_cons_header hh]
        simp [headerIP_paren hp h2, List.map_append, hip]
      | false =>
        rw [wifiRun_cons, wifiStep_header_bare hh hp h1]
        simp only [hempty, Bool.false_eq_true, if_false]
        obtain ⟨ds, hds, hmap⟩ := ih (devices ++ [cur])
          { hostname := some strUnknown, ip := some afterFor
            mac := none, vendor := none, status := none }
          afterFor rfl hok'
        refine ⟨ds, hds, ?_⟩
        rw [hmap, headersOf_cons_header hh]
        simp [headerIP_bare hp h1, List.map_append, hip]

theorem wifiRun_start :
    ∀ lines : List Line, headersOk lines = true → leadingInert lines = true →
      ∃ ds, wifiRun lines ([], Device.empty) = some ds ∧
        ds.map Device.ip = (headersOf lines).map (fun h => some (headerIP h)) := by
  intro lines
  induction lines with
  | nil => exact fun _ _ => ⟨[], rfl, rfl⟩
  | cons l ls ih =>
    intro hok hin
    rw [headersOk_cons] at hok
    obtain ⟨hokl, hok'⟩ := Bool.and_eq_true_iff.mp hok
    cases hh : isHeaderLine (pyStrip l) with
    | true =>
      have hfor : containsSub (pyStrip l) strFor = true := by
        rw [hh] at hokl
        simpa using hokl
      obtain ⟨afterFor, h1⟩ := exists_get1_of_containsSub strFor (pyStrip l) (by decide) hfor
      cases hp : (containsSub (pyStrip l) lpar && containsSub (pyStrip l) rpar) with
      | true =>
        obtain ⟨afterPar, h2⟩ := exists_get1_of_containsSub lpar (pyStrip l) (by decide)
          (Bool.and_eq_true_iff.mp hp).1
        rw [wifiRun_cons, wifiStep_header_paren hh hp h1 h2]
        dsimp only
        obtain ⟨ds, hds, hmap⟩ := wifiRun_after_header ls []
          { hostname := some ((splitOnSub strSpLpar afterFor).headD [])
            ip := some ((splitOnSub rpar afterPar).headD [])
            mac := none, vendor := none, status := none }
          ((splitOnSub rpar afterPar).headD []) rfl hok'
        refine ⟨ds, hds, ?_⟩
        rw [hmap, headersOf_cons_header hh]
        simp [headerIP_paren hp h2]
      | false =>
        rw [wifiRun_cons, wifiStep_header_bare hh hp h1]
        dsimp only
        obtain ⟨ds, hds, hmap⟩ := wifiRun_after_header ls []
          { hostname := some strUnknown, ip := some afterFor
            mac := none, vendor := none, status := none }
          afterFor rfl hok'
        refine ⟨ds, hds, ?_⟩
        rw [hmap, headersOf_cons_header hh]
        simp [headerIP_bare hp h1]
    | false =>
      rw [leadingInert_cons, hh] at hin
      simp only [Bool.false_or, Bool.and_eq_true] at hin
      obtain ⟨hinl, hin'⟩ := hin
      unfold isInertLine at hinl
      simp only [Bool.and_eq_true, Bool.not_eq_true'] at hinl
      obtain ⟨hm, hu⟩ := hinl
      rw [wifiRun_cons, wifiStep_inert hh hm hu]
      dsimp only
      obtain ⟨ds, hds, hmap⟩ := ih hok' hin'
      refine ⟨ds, hds, ?_⟩
      rw [hmap, headersOf_cons_other hh]

/-! ## Correctness lemmas for the website-parsing loops -/

theorem websiteFoldT_eq :
    ∀ (lines : List Line) (acc : List (Line × Line × Line)),
      websiteFoldT lines acc = some (acc ++ (lines.filter isOpenLine).map openRecord) := by
  intro lines
  induction lines with
  | nil => intro acc; simp [websiteFoldT]
  | cons l ls ih =>
    intro acc
    cases ho : isOpenLine l with
    | true =>
      have htcp : containsSub l strTcp = true := by
        have := ho
        unfold isOpenLine at this
        exact (Bool.and_eq_true_iff.mp this).1
      have hne : pySplitWS l ≠ [] :=
        pySplitWS_ne_nil l ⟨'/', mem_of_containsSub htcp (by decide), by decide⟩
      obtain ⟨p0, rest, hps⟩ := List.exists_cons_of_ne_nil hne
      have hstep : websiteStepT acc l = some (acc ++ [openRecord l]) := by
        unfold websiteStepT
        rw [if_pos ho, hps]
      simp only [websiteFoldT, hstep]
      rw [ih]
      simp [List.filter_cons, ho]
    | false =>
      have hstep : websiteStepT acc l = some acc := by
        unfold websiteStepT
        rw [if_neg (bool_not_true ho)]
      simp only [websiteFoldT, hstep]
      rw [ih]
      simp [List.filter_cons, ho]

theorem websiteParseT_eq (lines : List Line) :
    websiteParseT lines = some ((lines.filter isOpenLine).map openRecord) := by
  unfold websiteParseT
  rw [websiteFoldT_eq]
  rfl

theorem solaraFields_eq {line : Line} (htcp : containsSub line strTcp = true) :
    ∃ p0 rest, pySplitWS line = p0 :: rest ∧
      solaraFields line = some (p0.takeWhile (fun c => c != '/'),
        (p0 :: rest).getD 2 (str "unknown"),
        if 3 < (p0 :: rest).length then joinSpace ((p0 :: rest).drop 3) else []) := by
  have hne : pySplitWS line ≠ [] :=
    pySplitWS_ne_nil line ⟨'/', mem_of_containsSub htcp (by decide), by decide⟩
  obtain ⟨p0, rest, hps⟩ := List.exists_cons_of_ne_nil hne
  refine ⟨p0, rest, hps, ?_⟩
  unfold solaraFields
  rw [hps]
  dsimp only
  rw [splitOnSub_singleton_headD]

theorem getColorCode_mem {cm : ColorManager} {c : Line} {cm' : ColorManager}
    (hg : getColorCode cm = some (c, cm')) : c ∈ allAnsiCodes := by
  unfold getColorCode at hg
  split at hg
  · cases hrb : rainbowColors[cm.rainbow_index]? with
    | none => rw [hrb] at hg; simp at hg
    | some color =>
      rw [hrb] at hg
      simp only [Option.some.injEq, Prod.mk.injEq] at hg
      obtain ⟨h1, -⟩ := hg
      rw [← h1]
      exact List.mem_append_right _ (List.getElem?_mem hrb)
  · simp only [Option.some.injEq, Prod.mk.injEq] at hg
    obtain ⟨h1, -⟩ := hg
    rw [← h1]
    exact forceCode_mem _

theorem emits_two_forced (cm : ColorManager) (t1 t2 : Line) (f1 f2 : Int)
    (h1 : f1 ≠ 0) (h2 : f2 ≠ 0) :
    emits cm [(t1, some f1), (t2, some f2)] =
      some ([forceCode f1 ++ t1 ++ resetCode, forceCode f2 ++ t2 ++ resetCode], cm) := by
  simp [emits, colorize_force cm t1 f1 h1, colorize_force cm t2 f2 h2]

/-! ## Claim theorems -/

/-- C1: for every scan report text whose lines contain exactly two lines with
the `'/tcp'` marker and the token `'open'` (in order `l1`, `l2`), with
distinct port numbers and distinct service names, the website-scan parsing
loop yields exactly two open-port records carrying exactly those ports and
service names, in input order. -/
theorem claim_c1 (lines : List Line) (l1 l2 p1 s1 p2 s2 : Line)
    (hf : lines.filter isOpenLine = [l1, l2])
    (hp1 : (openRecord l1).1 = p1) (hs1 : (openRecord l1).2.1 = s1)
    (hp2 : (openRecord l2).1 = p2) (hs2 : (openRecord l2).2.1 = s2)
    (hpd : p1 ≠ p2) (hsd : s1 ≠ s2) :
    websiteParseT lines = some [(p1, s1, l1), (p2, s2, l2)] := by
  subst hp1 hs1 hp2 hs2
  rw [websiteParseT_eq, hf]
  rfl

/-- C1 witness: a four-line report with exactly two open lines. -/
theorem claim_c1_witness :
    ([str "Starting Nmap 7.80", str "22/tcp open ssh OpenSSH 8.2",
      str "Host is up", str "80/tcp open http Apache"].filter isOpenLine =
        [str "22/tcp open ssh OpenSSH 8.2", str "80/tcp open http Apache"]) ∧
    str "22" ≠ str "80" ∧ str "ssh" ≠ str "http" ∧
    websiteParseT [str "Starting Nmap 7.80", str "22/tcp open ssh OpenSSH 8.2",
        str "Host is up", str "80/tcp open http Apache"] =
      some [(str "22", str "ssh", str "22/tcp open ssh OpenSSH 8.2"),
            (str "80", str "http", str "80/tcp open http Apache")] := by
  refine ⟨by decide, by decide, by decide, ?_⟩
  exact claim_c1 _ (str "22/tcp open ssh OpenSSH 8.2") (str "80/tcp open http Apache")
    (str "22") (str "ssh") (str "80") (str "http")
    (by decide) (by decide) (by decide) (by decide) (by decide) (by decide) (by decide)

/-- C2 counterexample: a report whose `'Host is up'` line precedes the first
header produces two device records for one header line, the first carrying no
IP at all — refuting the claim that exactly N records are produced, each with
the IP of its header. -/
theorem claim_c2_counterexample :
    (headersOf [str "Host is up.", str "Nmap scan report for 10.0.0.1"]).length = 1 ∧
    wifiParse [str "Host is up.", str "Nmap scan report for 10.0.0.1"] =
      some [⟨none, none, none, none, some (str "UP")⟩,
            ⟨some (str "Unknown"), some (str "10.0.0.1"), none, none, none⟩] := by
  decide

/-- C2 (amended): for every report whose header lines all contain `'for '`
and in which no `'MAC Address:'` or `'Host is up'` line precedes the first
header, the device-parsing loop produces exactly N records for N headers,
each carrying the IP parsed from its header line; the final in-progress
record is appended after the loop ends. -/
theorem claim_c2_amended (lines : List Line)
    (hok : headersOk lines = true) (hin : leadingInert lines = true) :
    ∃ ds, wifiParse lines = some ds ∧
      ds.length = (headersOf lines).length ∧
      ds.map Device.ip = (headersOf lines).map (fun h => some (headerIP h)) := by
  obtain ⟨ds, hds, hmap⟩ := wifiRun_start lines hok hin
  refine ⟨ds, hds, ?_, hmap⟩
  have hlen := congrArg List.length hmap
  simpa using hlen

/-- C2 witness: a six-line discovery report with two headers. -/
theorem claim_c2_witness :
    headersOk [str "Starting Nmap 7.80",
      str "Nmap scan report for router.lan (192.168.1.1)",
      str "Host is up (0.0010s latency).",
      str "MAC Address: AA:BB:CC:DD:EE:FF (Vendor)",
      str "Nmap scan report for 192.168.1.7", str "Host is up."] = true ∧
    leadingInert [str "Starting Nmap 7.80",
      str "Nmap scan report for router.lan (192.168.1.1)",
      str "Host is up (0.0010s latency).",
      str "MAC Address: AA:BB:CC:DD:EE:FF (Vendor)",
      str "Nmap scan report for 192.168.1.7", str "Host is up."] = true ∧
    ∃ ds, wifiParse [str "Starting Nmap 7.80",
        str "Nmap scan report for router.lan (192.168.1.1)",
        str "Host is up (0.0010s latency).",
        str "MAC Address: AA:BB:CC:DD:EE:FF (Vendor)",
        str "Nmap scan report for 192.168.1.7", str "Host is up."] = some ds ∧
      ds.length = 2 ∧
      ds.map Device.ip = [some (str "192.168.1.1"), some (str "192.168.1.7")] := by
  refine ⟨by decide, by decide, ?_⟩
  obtain ⟨ds, h1, h2, h3⟩ := claim_c2_amended
    [str "Starting Nmap 7.80",
     str "Nmap scan report for router.lan (192.168.1.1)",
     str "Host is up (0.0010s latency).",
     str "MAC Address: AA:BB:CC:DD:EE:FF (Vendor)",
     str "Nmap scan report for 192.168.1.7", str "Host is up."] (by decide) (by decide)
  exact ⟨ds, h1, by rw [h2]; decide, by rw [h3]; decide⟩

/-- C3: for every line containing the `'/tcp'` marker and the token
`'open'`, the `solara.py` port parser splits on whitespace and yields a
record whose port is the first token truncated before `'/'`, whose service is
the third whitespace-delimited token, and whose version is the join of the
remaining tokens when any are present. -/
theorem claim_c3 (line : Line) (htcp : containsSub line strTcp = true)
    (_hopen : containsSub line strOpen = true) :
    ∃ p0 rest port service version,
      pySplitWS line = p0 :: rest ∧
      solaraFields line = some (port, service, version) ∧
      port = p0.takeWhile (fun c => c != '/') ∧
      (∀ t3, (p0 :: rest)[2]? = some t3 → service = t3) ∧
      (3 < (p0 :: rest).length → version = joinSpace ((p0 :: rest).drop 3)) := by
  obtain ⟨p0, rest, hps, hf⟩ := solaraFields_eq htcp
  refine ⟨p0, rest, _, _, _, hps, hf, rfl, ?_, ?_⟩
  · intro t3 ht3
    rw [List.getD_eq_getElem?_getD, ht3]
    rfl
  · intro hlen
    rw [if_pos hlen]

/-- C3 witness: a version-detection line with five whitespace tokens. -/
theorem claim_c3_witness :
    ∃ p0 rest port service version,
      pySplitWS (str "443/tcp open https Apache httpd 2.4.41") = p0 :: rest ∧
      solaraFields (str "443/tcp open https Apache httpd 2.4.41") =
        some (port, service, version) ∧
      port = p0.takeWhile (fun c => c != '/') ∧
      (∀ t3, (p0 :: rest)[2]? = some t3 → service = t3) ∧
      (3 < (p0 :: rest).length → version = joinSpace ((p0 :: rest).drop 3)) :=
  claim_c3 (str "443/tcp open https Apache httpd 2.4.41") (by decide) (by decide)

/-- C4 counterexample: after the explicit color command `color 99`, running a
basic scan and displaying one plain output line advances the rainbow index
from 0 to 1 — a scan/display operation does mutate the color-theme state. -/
theorem claim_c4_counterexample :
    setColor initCM 99 = { current_color := 99, rainbow_index := 0 } ∧
    (basicScan { current_color := 99, rainbow_index := 0 } (str "127.0.0.1") []
        (.ok (str "hello") [])).map (fun r => r.2.2.rainbow_index) = some 1 ∧
    (1 : Nat) ≠ 0 := by
  decide

/-- C4 (amended): the palette selection (`current_color`) is mutated only by
the explicit color command: every scan and display operation leaves
`current_color` unchanged (the wifi and website pipelines, which force every
color, leave the whole theme state unchanged), and `set_color` itself never
touches the rainbow index — though a display of an unforced line in rainbow
mode may advance the rainbow index. -/
theorem claim_c4_amended :
    (∀ (cm : ColorManager) (t : Line) (f : Option Int) (o : Line) (cm' : ColorManager),
      colorize cm t f = some (o, cm') → cm'.current_color = cm.current_color) ∧
    (∀ (cm : ColorManager) (target ans : Line) (res : InvokeResult) (b : ScanBranch)
        (os : List Line) (cm' : ColorManager),
      basicScan cm target ans res = some (b, os, cm') →
        cm'.current_color = cm.current_color) ∧
    (∀ (cm : ColorManager) (target ports ans : Line) (res : InvokeResult) (b : ScanBranch)
        (os : List Line) (cm' : ColorManager),
      portScan cm target ports ans res = some (b, os, cm') →
        cm'.current_color = cm.current_color) ∧
    (∀ (cm : ColorManager) (ni : Option (Line × Line)) (res : InvokeResult)
        (os : List Line) (cm' : ColorManager),
      wifiScanRun cm ni res = some (os, cm') → cm' = cm) ∧
    (∀ (cm : ColorManager) (w : Line) (res : InvokeResult) (os : List Line)
        (cm' : ColorManager),
      websiteScanTry cm w res = some (os, cm') → cm' = cm) ∧
    (∀ (n : Int) (cm : ColorManager), (setColor cm n).rainbow_index = cm.rainbow_index) := by
  refine ⟨?_, ?_, ?_, ?_, ?_, ?_⟩
  · intro cm t f o cm' h
    exact colorize_current h
  · intro cm target ans res b os cm' h
    exact basicScan_current h
  · intro cm target ports ans res b os cm' h
    exact portScan_current h
  · intro cm ni res os cm' h
    obtain ⟨os0, h0⟩ := wifiScanRun_state cm ni res
    rw [h] at h0
    simp only [Option.some.injEq, Prod.mk.injEq] at h0
    exact h0.2
  · intro cm w res os cm' h
    obtain ⟨os0, h0⟩ := websiteScanTry_state cm w res
    rw [h] at h0
    simp only [Option.some.injEq, Prod.mk.injEq] at h0
    exact h0.2
  · intro n cm
    unfold setColor
    split
    · rfl
    · split
      · rfl
      · rfl

/-- C4 witness: a basic scan in rainbow mode keeps the palette selection 99. -/
theorem claim_c4_amended_witness :
    (basicScan { current_color := 99, rainbow_index := 0 } (str "127.0.0.1") []
        (.ok (str "hi") [])).map (fun r => r.2.2.current_color) = some 99 := by
  cases h : basicScan { current_color := 99, rainbow_index := 0 } (str "127.0.0.1") []
      (.ok (str "hi") []) with
  | none => exact absurd h (by decide)
  | some r =>
    obtain ⟨b, os, cm'⟩ := r
    have hcc := claim_c4_amended.2.1 _ _ _ _ _ _ _ h
    simp [Option.map, hcc]

/-- C5 counterexample: the bare header line `'Nmap scan report for'` (no
parentheses, nothing after `for`) makes `line.split('for ')[1]` raise, so the
parse aborts with no record at all instead of producing hostname
`'Unknown'`. -/
theorem claim_c5_counterexample :
    isHeaderLine (pyStrip (str "Nmap scan report for")) = true ∧
    (containsSub (pyStrip (str "Nmap scan report for")) lpar &&
      containsSub (pyStrip (str "Nmap scan report for")) rpar) = false ∧
    wifiParse [str "Nmap scan report for"] = none := by
  decide

/-- C5 (amended): for every header line without both parentheses that does
contain the separator `'for '`, the parser starts a record with hostname
`'Unknown'` and IP the second field of the line split on `'for '` — the bare
text after the first `'for '` and before any later occurrence of it
(appending the previous in-progress record if nonempty). -/
theorem claim_c5_amended (devices : List Device) (cur : Device) (l : Line)
    (hh : isHeaderLine (pyStrip l) = true)
    (hp : (containsSub (pyStrip l) lpar && containsSub (pyStrip l) rpar) = false)
    (hfor : containsSub (pyStrip l) strFor = true) :
    ∃ ip, (splitOnSub strFor (pyStrip l))[1]? = some ip ∧
      wifiStep (devices, cur) l =
        some ((if cur.isEmpty then devices else devices ++ [cur]),
          { hostname := some strUnknown, ip := some ip
            mac := none, vendor := none, status := none }) := by
  obtain ⟨ip, h1⟩ := exists_get1_of_containsSub strFor (pyStrip l) (by decide) hfor
  exact ⟨ip, h1, wifiStep_header_bare hh hp h1⟩

/-- C5 witness: a bare-IP header line. -/
theorem claim_c5_witness :
    ∃ ip, (splitOnSub strFor (pyStrip (str "Nmap scan report for 10.0.0.5")))[1]? = some ip ∧
      wifiStep ([], Device.empty) (str "Nmap scan report for 10.0.0.5") =
        some ([], { hostname := some strUnknown, ip := some ip
                    mac := none, vendor := none, status := none }) :=
  claim_c5_amended [] Device.empty (str "Nmap scan report for 10.0.0.5")
    (by decide) (by decide) (by decide)

/-- C6 counterexample: on a line in which the marker `'MAC Address: '`
occurs twice, `replace` removes every occurrence, so the stored MAC is not
the remainder of the line after the prefix. -/
theorem claim_c6_counterexample :
    strMacColon.isPrefixOf (str "MAC Address: MAC Address: AA:BB:CC:DD:EE:FF") = true ∧
    containsSub (str "MAC Address: MAC Address: AA:BB:CC:DD:EE:FF") lpar = false ∧
    wifiStep ([], Device.empty) (str "MAC Address: MAC Address: AA:BB:CC:DD:EE:FF") =
      some ([], { hostname := none, ip := none, mac := some (str "AA:BB:CC:DD:EE:FF"),
                  vendor := some (str "Unknown"), status := none }) ∧
    str "AA:BB:CC:DD:EE:FF" ≠ str "MAC Address: AA:BB:CC:DD:EE:FF" := by
  decide

/-- C6 (amended): for every non-header line starting with `'MAC Address:'`
and containing no `'('`, the parser sets the record's MAC to the line with
every occurrence of `'MAC Address: '` removed (the remainder after the
prefix whenever the marker occurs only once) and the vendor to `'Unknown'`,
leaving the other fields and the device list unchanged. -/
theorem claim_c6_amended (devices : List Device) (cur : Device) (l : Line)
    (hh : isHeaderLine (pyStrip l) = false)
    (hm : strMacColon.isPrefixOf (pyStrip l) = true)
    (hnp : containsSub (pyStrip l) lpar = false) :
    wifiStep (devices, cur) l =
      some (devices,
        { cur with
            mac := some (pyReplace (pyStrip l) strMacSp [])
            vendor := some strUnknown }) := by
  have hmem : '(' ∉ pyStrip l := by
    intro hx
    have h1 : containsSub (pyStrip l) lpar = true := containsSub_singleton_of_mem hx
    rw [h1] at hnp
    cases hnp
  have hnp' : containsSub (pyReplace (pyStrip l) strMacSp []) lpar = false :=
    not_containsSub_singleton (not_mem_pyReplace hmem)
  simp only [wifiStep]
  rw [if_neg (bool_not_true hh), if_pos hm, if_neg (bool_not_true hnp')]

/-- C6 witness: an ordinary MAC line without a vendor. -/
theorem claim_c6_witness :
    isHeaderLine (pyStrip (str "MAC Address: AA:BB:CC:DD:EE:FF")) = false ∧
    strMacColon.isPrefixOf (pyStrip (str "MAC Address: AA:BB:CC:DD:EE:FF")) = true ∧
    containsSub (pyStrip (str "MAC Address: AA:BB:CC:DD:EE:FF")) lpar = false ∧
    wifiStep ([], Device.empty) (str "MAC Address: AA:BB:CC:DD:EE:FF") =
      some ([],
        { Device.empty with
            mac := some (pyReplace (pyStrip (str "MAC Address: AA:BB:CC:DD:EE:FF")) strMacSp [])
            vendor := some strUnknown }) :=
  ⟨by decide, by decide, by decide,
   claim_c6_amended [] Device.empty (str "MAC Address: AA:BB:CC:DD:EE:FF")
     (by decide) (by decide) (by decide)⟩

/-- C7: `set_color` is total; a number that is neither 99 nor a palette key
falls back to the default theme (current color 1, the rest of the state
untouched), a palette key selects exactly that color, and 99 enables rainbow
mode. -/
theorem claim_c7 :
    (∀ (cm : ColorManager) (n : Int), n ≠ 99 → colorMap n = none →
      setColor cm n = { cm with current_color := 1 }) ∧
    (∀ (cm : ColorManager) (n : Int), n ≠ 99 → (colorMap n).isSome = true →
      setColor cm n = { cm with current_color := n }) ∧
    (∀ cm : ColorManager, setColor cm 99 = { cm with current_color := 99 }) := by
  refine ⟨?_, ?_, ?_⟩
  · intro cm n h99 hnone
    unfold setColor
    rw [if_neg h99, if_neg (by rw [hnone]; simp)]
  · intro cm n h99 hsome
    unfold setColor
    rw [if_neg h99, if_pos hsome]
  · intro cm
    unfold setColor
    rw [if_pos rfl]

/-- C7 witness: color 42 is out of range, 7 is a key, 99 is rainbow. -/
theorem claim_c7_witness :
    setColor initCM 42 = { initCM with current_color := 1 } ∧
    setColor initCM 7 = { initCM with current_color := 7 } ∧
    setColor initCM 99 = { initCM with current_color := 99 } :=
  ⟨claim_c7.1 initCM 42 (by decide) (by decide),
   claim_c7.2.1 initCM 7 (by decide) (by decide),
   claim_c7.2.2 initCM⟩

/-- C8: when the invocation of a validated basic scan raises the timeout
exception, the operation reports exactly the timeout-specific message, the
branch taken is the timeout branch and not the generic catch-all branch, and
the interactive loop continues (only the `exit` command leaves it). -/
theorem claim_c8 (cm : ColorManager) (target ans : Line)
    (hv : validateTarget target ans = true) :
    basicScan cm target ans .timeout =
      some (.timedOut,
        [forceCode 2 ++ (str "🔍 Running basic scan on " ++ target ++ str "...") ++ resetCode,
         forceCode 3 ++ str "❌ Scan timed out after 5 minutes" ++ resetCode], cm) ∧
    ScanBranch.timedOut ≠ ScanBranch.failed ∧
    (∀ e : Line, branchOf (.err e) = ScanBranch.failed) ∧
    replCtl (str "basic 127.0.0.1") = .next ∧
    (∀ cmd : Line, pyLower ((pySplitWS (pyStrip cmd)).headD []) ≠ str "exit" →
      replCtl cmd = .next) := by
  refine ⟨?_, by decide, fun _ => rfl, by decide, ?_⟩
  · unfold basicScan
    rw [if_pos hv]
    unfold tagEmits basicScanItems
    rw [emits_two_forced cm _ _ 2 3 (by decide) (by decide)]
    rfl
  · intro cmd hne
    unfold replCtl
    rw [if_neg (by simpa using hne)]

/-- C8 witness: a timed-out basic scan of localhost. -/
theorem claim_c8_witness :
    validateTarget (str "127.0.0.1") [] = true ∧
    basicScan initCM (str "127.0.0.1") [] .timeout =
      some (.timedOut,
        [forceCode 2 ++ (str "🔍 Running basic scan on " ++ str "127.0.0.1" ++ str "...") ++
          resetCode,
         forceCode 3 ++ str "❌ Scan timed out after 5 minutes" ++ resetCode], initCM) :=
  ⟨by decide, (claim_c8 initCM (str "127.0.0.1") [] (by decide)).1⟩

/-- C9: colorize wraps any text in exactly one ANSI code from the fixed
repertoire plus the reset code, leaving the text unchanged; the basic-scan
display chain forces green for `'open'` lines, red for `'closed'`/
`'filtered'` lines and blue for header lines; and the parsed open-port
records pass into the website display unchanged, independent of any color
state. -/
theorem claim_c9 :
    (∀ (cm : ColorManager) (t : Line) (f : Option Int), Reachable cm →
      ∃ code cm', colorize cm t f = some (code ++ t ++ resetCode, cm') ∧
        code ∈ allAnsiCodes) ∧
    (∀ l : Line, containsSub (pyLower l) strOpen = true → displayForce l = some 2) ∧
    (∀ l : Line, containsSub (pyLower l) strOpen = false →
      (containsSub (pyLower l) strClosed || containsSub (pyLower l) strFiltered) = true →
      displayForce l = some 3) ∧
    (∀ l : Line, containsSub (pyLower l) strOpen = false →
      (containsSub (pyLower l) strClosed || containsSub (pyLower l) strFiltered) = false →
      containsSub l strNmapHdr = true → displayForce l = some 4) ∧
    (∀ (w : Line) (res : InvokeResult) (recs : List (Line × Line × Line)),
      websiteRecords res = some recs → ∀ r ∈ recs,
        (str "🔹 Port " ++ r.1 ++ str ":", some (4 : Int)) ∈ websiteScanItems w res ∧
        (str "   Service: " ++ r.2.1, some (6 : Int)) ∈ websiteScanItems w res) := by
  refine ⟨?_, ?_, ?_, ?_, ?_⟩
  · intro cm t f hr
    have hinv := reachable_inv hr
    cases htr : truthy f with
    | true =>
      refine ⟨forceCode (f.getD 0), cm, ?_, forceCode_mem _⟩
      unfold colorize
      rw [if_pos htr]
    | false =>
      obtain ⟨c, cm', hg⟩ := getColorCode_total hinv
      refine ⟨c, cm', ?_, getColorCode_mem hg⟩
      unfold colorize
      rw [if_neg (bool_not_true htr), hg]
  · intro l h
    unfold displayForce
    rw [if_pos h]
  · intro l h1 h2
    unfold displayForce
    rw [if_neg (bool_not_true h1), if_pos h2]
  · intro l h1 h2 h3
    unfold displayForce
    rw [if_neg (bool_not_true h1), if_neg (bool_not_true h2), if_pos h3]
  · intro w res recs h r hr
    cases res with
    | timeout =>
      simp only [websiteRecords, Option.some.injEq] at h
      rw [← h] at hr
      cases hr
    | err e =>
      simp only [websiteRecords, Option.some.injEq] at h
      rw [← h] at hr
      cases hr
    | ok out errtxt =>
      simp only [websiteRecords] at h
      have hne : ¬(recs.isEmpty = true) := by
        simpa using List.ne_nil_of_mem hr
      have hitems : websiteScanItems w (.ok out errtxt) =
          [(sepEq70, some 4), (str "🌐 WEBSITE SCAN RESULTS: " ++ w, some 2),
           (sepEq70, some 4)] ++
          ((str "🎯 Found " ++ natLine recs.length ++ str " open ports:\n", some (2 : Int))
            :: (recs.map recItems).flatten) := by
        simp only [websiteScanItems, h]
        rw [if_neg hne]
      rw [hitems]
      constructor
      · refine List.mem_append_right _ (List.mem_cons_of_mem _ ?_)
        refine List.mem_flatten.mpr ⟨recItems r, List.mem_map_of_mem _ hr, ?_⟩
        exact List.mem_append_left _ (List.mem_cons_self _ _)
      · refine List.mem_append_right _ (List.mem_cons_of_mem _ ?_)
        refine List.mem_flatten.mpr ⟨recItems r, List.mem_map_of_mem _ hr, ?_⟩
        exact List.mem_append_left _ (List.mem_cons_of_mem _ (List.mem_cons_self _ _))

/-- C9 witness: concrete colorize call, display classifications, and one
parsed record surfacing in the website display items. -/
theorem claim_c9_witness :
    (∃ code cm', colorize initCM (str "hi") none =
        some (code ++ str "hi" ++ resetCode, cm') ∧ code ∈ allAnsiCodes) ∧
    displayForce (str "80/tcp open http") = some 2 ∧
    displayForce (str "81/tcp closed http") = some 3 ∧
    displayForce (str "Nmap scan report for h") = some 4 ∧
    ((str "🔹 Port " ++ str "80" ++ str ":", some (4 : Int)) ∈
        websiteScanItems (str "example.com") (.ok (str "80/tcp open http") []) ∧
      (str "   Service: " ++ str "http", some (6 : Int)) ∈
        websiteScanItems (str "example.com") (.ok (str "80/tcp open http") [])) := by
  refine ⟨claim_c9.1 initCM (str "hi") none Reachable.init,
    claim_c9.2.1 _ (by decide),
    claim_c9.2.2.1 _ (by decide) (by decide),
    claim_c9.2.2.2.1 _ (by decide) (by decide) (by decide), ?_⟩
  exact claim_c9.2.2.2.2 (str "example.com") (.ok (str "80/tcp open http") [])
    [(str "80", str "http", str "80/tcp open http")] (by decide)
    (str "80", str "http", str "80/tcp open http") (List.mem_singleton.mpr rfl)

/-- C10: in every reachable ColorManager state, the current color is 99 or a
key of the palette and the rainbow index lies in 0..5; consequently
`get_color_code` always returns a defined ANSI code without failing a
lookup. -/
theorem claim_c10 (cm : ColorManager) (h : Reachable cm) :
    ((cm.current_color = 99 ∨ (colorMap cm.current_color).isSome = true) ∧
      cm.rainbow_index ≤ 5) ∧
    ∃ c cm', getColorCode cm = some (c, cm') := by
  have hinv := reachable_inv h
  refine ⟨⟨hinv.1, ?_⟩, getColorCode_total hinv⟩
  have := hinv.2
  omega

/-- C10 witness: the freshly constructed manager. -/
theorem claim_c10_witness :
    ((initCM.current_color = 99 ∨ (colorMap initCM.current_color).isSome = true) ∧
      initCM.rainbow_index ≤ 5) ∧
    ∃ c cm', getColorCode initCM = some (c, cm') :=
  claim_c10 initCM Reachable.init

/-! ## Concrete evaluation checks

Each of the following evaluates an embedded definition on a small concrete
input and compares the result with the behaviour of the Python source on the
same input. -/

theorem evalCheck01 : str "ab" = ['a', 'b'] := rfl
theorem evalCheck02 : replCtl (str "  EXIT ") = .halt := by decide
theorem evalCheck03 : replCtl (str "basic 127.0.0.1") = .next := by decide
theorem evalCheck04 : replCtl [] = .next := by decide
theorem evalCheck05 : validateTarget (str "192.168.1.7") [] = true := by decide
theorem evalCheck06 : validateTarget (str "172.20.0.1") [] = true := by decide
theorem evalCheck07 : validateTarget (str "172.32.0.1") [] = false := by decide
theorem evalCheck08 : validateTarget (str "8.8.8.8") (str "YES") = true := by decide
theorem evalCheck09 : basicScan initCM (str "127.0.0.1") [] .timeout =
    some (.timedOut,
      [str "\x1b[92m" ++ str "🔍 Running basic scan on " ++ str "127.0.0.1" ++ str "..." ++ str "\x1b[0m",
       str "\x1b[91m" ++ str "❌ Scan timed out after 5 minutes" ++ str "\x1b[0m"],
      initCM) := by decide
theorem evalCheck10 : wifiParse [str "Host is up.", str "Nmap scan report for 10.0.0.1"] =
    some [{ hostname := none, ip := none, mac := none, vendor := none, status := some (str "UP") },
          { hostname := some (str "Unknown"), ip := some (str "10.0.0.1"),
            mac := none, vendor := none, status := none }] := by decide
theorem evalCheck11 : wifiParse [str "Nmap scan report for"] = none := by decide
theorem evalCheck12 : wifiParse [str "Nmap scan report for router.lan (192.168.1.1)",
    str "Host is up (0.0010s latency).",
    str "MAC Address: AA:BB:CC:DD:EE:FF (SomeVendor Inc.)"] =
    some [{ hostname := some (str "router.lan"), ip := some (str "192.168.1.1"),
            mac := some (str "AA:BB:CC:DD:EE:FF"), vendor := some (str "SomeVendor Inc."),
            status := some (str "UP") }] := by decide
theorem evalCheck13 : websiteParseT [str "Starting Nmap", str "22/tcp open ssh OpenSSH 8.2", str "80/tcp open http"] =
    some [(str "22", str "ssh", str "22/tcp open ssh OpenSSH 8.2"),
          (str "80", str "http", str "80/tcp open http")] := by decide
theorem evalCheck14 : solaraFields (str "22/tcp open ssh OpenSSH 8.2p1 Ubuntu") =
    some (str "22", str "ssh", str "OpenSSH 8.2p1 Ubuntu") := by decide
theorem evalCheck15 : setColor initCM 42 = initCM := by decide
theorem evalCheck16 : getColorCode { current_color := 99, rainbow_index := 0 } =
    some (str "\x1b[91m", { current_color := 99, rainbow_index := 1 }) := by decide
theorem evalCheck17 : colorize initCM (str "hi") (some 3) =
    some (str "\x1b[91m" ++ str "hi" ++ str "\x1b[0m", initCM) := by decide
theorem evalCheck18 : pyStrip (str "  a b\n") = str "a b" := by decide
theorem evalCheck19 : pySplitWS (str "80/tcp  open http") = [str "80/tcp", str "open", str "http"] := by decide
theorem evalCheck20 : splitOnSub (str "for ") (str "Nmap scan report for 10.0.0.1") =
    [str "Nmap scan report ", str "10.0.0.1"] := by decide
theorem evalCheck21 : splitOnSub (str "for ") (str "Nmap scan report for") = [str "Nmap scan report for"] := by decide
theorem evalCheck22 : pyReplace (str "MAC Address: MAC Address: AA") (str "MAC Address: ") [] = str "AA" := by decide
theorem evalCheck23 : containsSub (str "12/tcp open") (str "/tcp") = true := by decide
theorem evalCheck24 : containsSub (str "12/tcp open") (str "closed") = false := by decide
theorem evalCheck25 : pyLower (str "OPen") = str "open" := by decide
theorem evalCheck26 : natLine 105 = str "105" := by decide
theorem evalCheck27 : joinSpace [str "a", str "bc"] = str "a bc" := by decide
